import Mathlib

/-!
# Verification of the auction lifecycle engine and bid-validation state machine

Shallow embedding of the core of `Sistema_Leilao-2.0`
(`src/models/models.py`, `src/utils/validators.py`,
`src/services/lance_service.py`, `src/services/leilao_service.py`).

Modelling conventions:
* Monetary values (`Float` columns) are embedded as `ℚ`; every comparison the
  services perform (`<`, `<=`, `+ 0.01`) is exact at the magnitudes involved.
* `datetime` values are embedded as `ℤ` (an abstract totally ordered clock);
  only comparisons and "now" snapshots matter to the services.
* A SQLAlchemy session scoped to one auction is embedded as a `Store`:
  the registered participant ids, the auction row, and the auction's bids in
  insertion order (`datetime.now()` is monotone, so `order_by(data_lance desc)
  .first()` is the last inserted element).
* Python's single `ValidationError` class is refined into the error taxonomy
  of the specification, keyed to the distinct message strings the services
  raise; `ErrKind` gives the specification-level kind of each message.
* `session.rollback()` on failure is embedded by the operation returning
  `Except.error` and the caller keeping the previous state (`runLances`).
-/

namespace Leilao2

instance {ε α : Type} [DecidableEq ε] [DecidableEq α] :
    DecidableEq (Except ε α) := fun a b =>
  match a, b with
  | .error e, .error f =>
    if h : e = f then .isTrue (by rw [h])
    else .isFalse fun hc => h (Except.error.inj hc)
  | .error _, .ok _ => .isFalse fun hc => Except.noConfusion hc
  | .ok _, .error _ => .isFalse fun hc => Except.noConfusion hc
  | .ok x, .ok y =>
    if h : x = y then .isTrue (by rw [h])
    else .isFalse fun hc => h (Except.ok.inj hc)

/-- `StatusLeilao` enum from `src/models/models.py`. -/
inductive StatusLeilao where
  | INATIVO
  | ABERTO
  | FINALIZADO
  | EXPIRADO
deriving DecidableEq, Repr

/-- `Lance` row from `src/models/models.py` (id column omitted; the list
position in `Store.lances` plays the role of insertion order). -/
structure Lance where
  valor : ℚ
  leilao_id : ℕ
  participante_id : ℕ
  data_lance : ℤ
deriving DecidableEq, Repr

/-- `Leilao` row from `src/models/models.py`. -/
structure Leilao where
  id : ℕ
  nome : String
  lance_minimo : ℚ
  data_inicio : ℤ
  data_termino : ℤ
  status : StatusLeilao
  participante_vencedor_id : Option ℕ
deriving DecidableEq, Repr

/-- The database state visible to the bid engine, scoped to one auction:
registered participant ids, the auction row, and its bids in insertion
order. -/
structure Store where
  participantes : List ℕ
  leilao : Leilao
  lances : List Lance
deriving DecidableEq, Repr

/-- Errors raised by `LanceService.criar_lance` and the validators it calls,
one constructor per distinct message string. -/
inductive BidError where
  /-- "Valor do lance deve ser maior que zero" (`ValidadorLance.validar_valor`). -/
  | invalidValue
  /-- "Participante com ID ... não encontrado". -/
  | participantNotFound
  /-- "Leilão com ID ... não encontrado". -/
  | auctionNotFound
  /-- "Lances só podem ser realizados em leilões ABERTOS. Status atual: ...". -/
  | auctionNotOpen (atual : StatusLeilao)
  /-- "Lance deve ser pelo menos R$ {lance_minimo}". -/
  | belowMinimum (minimo : ℚ)
  /-- "Lance deve ser maior que R$ {ultimo.valor}". -/
  | tooLow (ultimo : ℚ)
  /-- "O mesmo participante não pode efetuar dois lances consecutivos". -/
  | consecutiveBidder
deriving DecidableEq, Repr

/-- The specification's error taxonomy (§7 of the spec). -/
inductive ErrKind where
  | validation
  | notFound
  | invalidState
  | belowFloor
  | tooLow
  | consecutive
deriving DecidableEq, Repr

/-- Kind of each `criar_lance` message under the specification taxonomy. -/
def BidError.kind : BidError → ErrKind
  | .invalidValue => .validation
  | .participantNotFound => .notFound
  | .auctionNotFound => .notFound
  | .auctionNotOpen _ => .invalidState
  | .belowMinimum _ => .belowFloor
  | .tooLow _ => .tooLow
  | .consecutiveBidder => .consecutive

/-- `ValidadorLance.validar_valor` (`src/utils/validators.py`): a `ℚ` input is
already numeric and non-`None`, so only the `valor <= 0` branch remains. -/
def validar_valor (valor : ℚ) : Except BidError ℚ :=
  if valor ≤ 0 then .error .invalidValue else .ok valor

/-- The bids of auction `lid`, in insertion order
(`query(Lance).filter(Lance.leilao_id == lid)`). -/
def lancesDoLeilao (lances : List Lance) (lid : ℕ) : List Lance :=
  lances.filter (fun x => x.leilao_id == lid)

/-- `order_by(Lance.data_lance.desc()).first()`: the most recently inserted
bid of auction `lid` (insertion order and `data_lance` order coincide since
`datetime.now()` is monotone). -/
def ultimoLance (lances : List Lance) (lid : ℕ) : Option Lance :=
  (lancesDoLeilao lances lid).getLast?

/-- `LanceService.criar_lance` (`src/services/lance_service.py`, lines 14-80).
On success the new bid is committed (appended); on failure the session is
rolled back, which the caller models by keeping the old `Store`. -/
def criar_lance (st : Store) (participante_id leilao_id : ℕ) (valor : ℚ)
    (agora : ℤ) : Except BidError Store :=
  match validar_valor valor with
  | .error e => .error e
  | .ok valor =>
    if participante_id ∉ st.participantes then .error .participantNotFound
    else if leilao_id ≠ st.leilao.id then .error .auctionNotFound
    else if st.leilao.status ≠ StatusLeilao.ABERTO then
      .error (.auctionNotOpen st.leilao.status)
    else if valor < st.leilao.lance_minimo then
      .error (.belowMinimum st.leilao.lance_minimo)
    else
      match ultimoLance st.lances leilao_id with
      | some ultimo =>
        if valor ≤ ultimo.valor then .error (.tooLow ultimo.valor)
        else if ultimo.participante_id = participante_id then
          .error .consecutiveBidder
        else .ok { st with lances :=
          st.lances ++ [⟨valor, leilao_id, participante_id, agora⟩] }
      | none => .ok { st with lances :=
          st.lances ++ [⟨valor, leilao_id, participante_id, agora⟩] }

/-- A bid attempt: participant id, amount, wall-clock instant. -/
structure Tentativa where
  participante_id : ℕ
  valor : ℚ
  agora : ℤ
deriving DecidableEq, Repr

/-- Run a sequence of `criar_lance` calls against the store's auction.  A
failed call raises to the caller after `session.rollback()`, so the store is
unchanged for the next call. -/
def runLances (st : Store) (tentativas : List Tentativa) : Store :=
  tentativas.foldl
    (fun s t =>
      match criar_lance s t.participante_id s.leilao.id t.valor t.agora with
      | .ok s' => s'
      | .error _ => s)
    st

/-- Rejection reasons produced by `LanceService.simular_lance`, one
constructor per distinct `resultado['motivo']` string. -/
inductive SimMotivo where
  /-- Initial `''` value. -/
  | vazio
  /-- Message propagated from `ValidadorLance.validar_valor`. -/
  | invalidValue
  /-- "Participante não encontrado". -/
  | participantNotFound
  /-- "Leilão não encontrado". -/
  | auctionNotFound
  /-- "Leilão não está aberto (status: ...)". -/
  | notOpen (atual : StatusLeilao)
  /-- "Você foi o último a dar lance neste leilão". -/
  | lastBidder
  /-- "Lance deve ser pelo menos R$ {valor_minimo}". -/
  | amountTooLow (minimo : ℚ)
  /-- "Lance válido". -/
  | valid
deriving DecidableEq, Repr

/-- The `resultado` dict built by `LanceService.simular_lance`. -/
structure SimResult where
  valido : Bool
  motivo : SimMotivo
  valor_minimo_aceito : Option ℚ
  ultimo_lance : Option (ℚ × ℕ × ℤ)
  seu_ultimo_lance : Option (ℚ × ℤ)
deriving DecidableEq, Repr

/-- Tail of `simular_lance` after `valor_minimo` has been fixed: the
amount check and the caller's-own-last-bid lookup. -/
def simularFim (st : Store) (participante_id leilao_id : ℕ) (valor : ℚ)
    (valor_minimo : ℚ) (base : SimResult) : SimResult :=
  if valor < valor_minimo then
    { base with
        valor_minimo_aceito := some valor_minimo
        motivo := .amountTooLow valor_minimo }
  else
    { base with
        valor_minimo_aceito := some valor_minimo
        valido := true
        motivo := .valid
        seu_ultimo_lance := ((st.lances.filter
          (fun x => x.leilao_id == leilao_id &&
            x.participante_id == participante_id)).getLast?).map
          (fun s => (s.valor, s.data_lance)) }

/-- `LanceService.simular_lance` (`src/services/lance_service.py`,
lines 360-438).  The session is only read, never written. -/
def simular_lance (st : Store) (participante_id leilao_id : ℕ) (valor : ℚ) :
    SimResult :=
  let base : SimResult := ⟨false, .vazio, none, none, none⟩
  match validar_valor valor with
  | .error _ => { base with motivo := .invalidValue }
  | .ok valor =>
    if participante_id ∉ st.participantes then
      { base with motivo := .participantNotFound }
    else if leilao_id ≠ st.leilao.id then
      { base with motivo := .auctionNotFound }
    else if st.leilao.status ≠ StatusLeilao.ABERTO then
      { base with motivo := .notOpen st.leilao.status }
    else
      match ultimoLance st.lances leilao_id with
      | some ultimo =>
        if ultimo.participante_id = participante_id then
          { base with
              ultimo_lance :=
                some (ultimo.valor, ultimo.participante_id, ultimo.data_lance)
              motivo := .lastBidder }
        else
          simularFim st participante_id leilao_id valor (ultimo.valor + 1/100)
            { base with
                ultimo_lance := some (ultimo.valor, ultimo.participante_id, ultimo.data_lance) }
      | none =>
        simularFim st participante_id leilao_id valor st.leilao.lance_minimo base

/-- A `simular_lance` call site: the same arguments as a bid attempt. -/
def runSimulacoes (st : Store) (chamadas : List (ℕ × ℕ × ℚ)) :
    Store × List SimResult :=
  chamadas.foldl
    (fun acc c =>
      let r := simular_lance acc.1 c.1 c.2.1 c.2.2
      (acc.1, acc.2 ++ [r]))
    (st, [])

/-- Whether every stored last bid of the store's auction already meets the
auction's floor — an invariant of every state reachable through
`criar_lance`, stated as an executable check. -/
def ultimoRespeitaMinimo (st : Store) : Bool :=
  match ultimoLance st.lances st.leilao.id with
  | some u => st.leilao.lance_minimo ≤ u.valor
  | none => true

/-- Errors raised by `LeilaoService` operations and the validators they call,
one constructor per distinct message string. -/
inductive LeilaoError where
  /-- "Leilão com ID ... não encontrado". -/
  | notFound
  /-- "Leilão no estado ... não pode ser alterado" / "... não pode ser excluído". -/
  | cannotModify (atual : StatusLeilao)
  /-- "Nome do leilão é obrigatório" / "... pelo menos 3 caracteres". -/
  | invalidNome
  /-- "Lance mínimo é obrigatório" / "... deve ser maior que zero". -/
  | invalidMinimo
  /-- "Data de término deve ser posterior à data de início". -/
  | dateOrder
  /-- "Data de início não pode ser no passado". -/
  | pastDate
deriving DecidableEq, Repr

/-- Kind of each `LeilaoService` message under the specification taxonomy. -/
def LeilaoError.kind : LeilaoError → ErrKind
  | .notFound => .notFound
  | .cannotModify _ => .invalidState
  | .invalidNome => .validation
  | .invalidMinimo => .validation
  | .dateOrder => .validation
  | .pastDate => .validation

/-- Python's `str.strip()`: drop whitespace from both ends (structurally
recursive counterpart of `String.trim`). -/
def strip (s : String) : String :=
  ⟨((s.data.dropWhile Char.isWhitespace).reverse.dropWhile
      Char.isWhitespace).reverse⟩

/-- `ValidadorLeilao.validar_nome` (`src/utils/validators.py`): strip, then
require at least 3 characters. -/
def validar_nome (nome : String) : Except LeilaoError String :=
  if (strip nome).data.isEmpty then .error .invalidNome
  else if (strip nome).data.length < 3 then .error .invalidNome
  else .ok (strip nome)

/-- `ValidadorLeilao.validar_lance_minimo`: a `ℚ` input is already numeric,
so only the `<= 0` branch remains. -/
def validar_lance_minimo (m : ℚ) : Except LeilaoError ℚ :=
  if m ≤ 0 then .error .invalidMinimo else .ok m

/-- `ValidadorLeilao.validar_datas` on already-parsed datetimes: end must
strictly follow start, and unless `permitir_passado` the start must not lie
before `agora` (`datetime.now()` at validation time). -/
def validar_datas (data_inicio data_termino : ℤ) (permitir_passado : Bool)
    (agora : ℤ) : Except LeilaoError (ℤ × ℤ) :=
  if data_termino ≤ data_inicio then .error .dateOrder
  else if permitir_passado then .ok (data_inicio, data_termino)
  else if data_inicio < agora then .error .pastDate
  else .ok (data_inicio, data_termino)

/-- `LeilaoService.criar_leilao` (`src/services/leilao_service.py`,
lines 14-44): validate, then insert an `INATIVO` auction with no winner.
`id` stands for the autoincrement key the insert produces. -/
def criar_leilao (id : ℕ) (nome : String) (lance_minimo : ℚ)
    (data_inicio data_termino : ℤ) (permitir_passado : Bool) (agora : ℤ) :
    Except LeilaoError Leilao := do
  let n ← validar_nome nome
  let m ← validar_lance_minimo lance_minimo
  let (di, dt) ← validar_datas data_inicio data_termino permitir_passado agora
  pure ⟨id, n, m, di, dt, StatusLeilao.INATIVO, none⟩

/-- `LeilaoService.atualizar_leilao` (`src/services/leilao_service.py`,
lines 46-87).  The guard rejects only `ABERTO` and `FINALIZADO`; dates are
re-validated through `validar_datas` with its default
`permitir_passado=False`.  A validation failure rolls the whole update
back, which the embedding gets by returning `Except.error`. -/
def atualizar_leilao (st : Store) (leilao_id : ℕ) (nome : Option String)
    (lance_minimo : Option ℚ) (data_inicio data_termino : Option ℤ)
    (agora : ℤ) : Except LeilaoError Store := do
  if leilao_id ≠ st.leilao.id then throw .notFound
  if st.leilao.status = StatusLeilao.ABERTO ∨
      st.leilao.status = StatusLeilao.FINALIZADO then
    throw (.cannotModify st.leilao.status)
  let l := st.leilao
  let l ← match nome with
    | none => pure l
    | some n => do
      let n' ← validar_nome n
      pure { l with nome := n' }
  let l ← match lance_minimo with
    | none => pure l
    | some m => do
      let m' ← validar_lance_minimo m
      pure { l with lance_minimo := m' }
  let l ← if data_inicio.isSome ∨ data_termino.isSome then do
      let ni := data_inicio.getD l.data_inicio
      let nt := data_termino.getD l.data_termino
      let (ni, nt) ← validar_datas ni nt false agora
      pure { l with data_inicio := ni, data_termino := nt }
    else pure l
  pure { st with leilao := l }

/-- `LeilaoService.excluir_leilao` (`src/services/leilao_service.py`,
lines 89-114).  The guard rejects only `ABERTO` and `FINALIZADO`;
`.ok true` means the row was deleted. -/
def excluir_leilao (st : Store) (leilao_id : ℕ) : Except LeilaoError Bool :=
  if leilao_id ≠ st.leilao.id then .error .notFound
  else if st.leilao.status = StatusLeilao.ABERTO ∨
      st.leilao.status = StatusLeilao.FINALIZADO then
    .error (.cannotModify st.leilao.status)
  else .ok true

/-- `order_by(Lance.valor.desc()).first()` on a bid list: a bid of maximal
amount, the earliest inserted among equals. -/
def lanceVencedor : List Lance → Option Lance
  | [] => none
  | x :: xs => some (xs.foldl (fun best y => if best.valor < y.valor then y else best) x)

/-- The transition tallies built by `atualizar_status_leiloes`
(`emails_enviados`, which belongs to the external notifier, is omitted). -/
structure Counts where
  abertos : ℕ
  finalizados : ℕ
  expirados : ℕ
deriving DecidableEq, Repr

instance : Add Counts :=
  ⟨fun a b => ⟨a.abertos + b.abertos, a.finalizados + b.finalizados,
    a.expirados + b.expirados⟩⟩

/-- The shared "data_termino reached" block of the sweep: `FINALIZADO` with
the highest bid's participant as winner when the auction has bids,
`EXPIRADO` otherwise. -/
def encerrarLeilao (lances : List Lance) (l : Leilao) : Leilao × Counts :=
  if 0 < (lancesDoLeilao lances l.id).length then
    match lanceVencedor (lancesDoLeilao lances l.id) with
    | some w =>
      ({ l with
          status := StatusLeilao.FINALIZADO
          participante_vencedor_id := some w.participante_id }, ⟨0, 1, 0⟩)
    | none => ({ l with status := StatusLeilao.FINALIZADO }, ⟨0, 1, 0⟩)
  else ({ l with status := StatusLeilao.EXPIRADO }, ⟨0, 0, 1⟩)

/-- Body of the per-auction loop of `LeilaoService.atualizar_status_leiloes`
(`src/services/leilao_service.py`, lines 143-186), evaluated at wall-clock
instant `agora`. -/
def sweepLeilao (agora : ℤ) (lances : List Lance) (l : Leilao) :
    Leilao × Counts :=
  if l.status = StatusLeilao.INATIVO then
    if l.data_termino ≤ agora then encerrarLeilao lances l
    else if l.data_inicio ≤ agora then
      ({ l with status := StatusLeilao.ABERTO }, ⟨1, 0, 0⟩)
    else (l, ⟨0, 0, 0⟩)
  else if l.status = StatusLeilao.ABERTO then
    if l.data_termino ≤ agora then encerrarLeilao lances l
    else (l, ⟨0, 0, 0⟩)
  else (l, ⟨0, 0, 0⟩)

/-- The whole database the sweep ranges over: all auction rows and all bids. -/
structure DB where
  leiloes : List Leilao
  lances : List Lance
deriving DecidableEq, Repr

/-- The `filter(Leilao.status.in_([INATIVO, ABERTO]))` gate of the sweep
query: rows in another status are not processed. -/
def sweepGate (agora : ℤ) (lances : List Lance) (l : Leilao) : Leilao × Counts :=
  if l.status = StatusLeilao.INATIVO ∨ l.status = StatusLeilao.ABERTO then
    sweepLeilao agora lances l
  else (l, ⟨0, 0, 0⟩)

/-- The sweep loop over all auction rows, tallying the transitions. -/
def sweepLista (agora : ℤ) (lances : List Lance) :
    List Leilao → List Leilao × Counts
  | [] => ([], ⟨0, 0, 0⟩)
  | l :: ls =>
    ((sweepGate agora lances l).1 :: (sweepLista agora lances ls).1,
      (sweepGate agora lances l).2 + (sweepLista agora lances ls).2)

/-- `LeilaoService.atualizar_status_leiloes` (`src/services/leilao_service.py`,
lines 116-200), at wall-clock instant `agora`; the email side channel is the
external notifier and does not touch the store. -/
def atualizar_status_leiloes (agora : ℤ) (db : DB) : DB × Counts :=
  let (ls, c) := sweepLista agora db.lances db.leiloes
  ({ db with leiloes := ls }, c)

/-- The dict returned by `LanceService.obter_maior_menor_lance`. -/
structure MaiorMenor where
  maior_lance : Option ℚ
  menor_lance : Option ℚ
  lance_atual : ℚ
  total_lances : ℕ
deriving DecidableEq, Repr

/-- Python's `max` over the amounts of a nonempty bid list. -/
def maiorValor (x : Lance) (xs : List Lance) : ℚ :=
  xs.foldl (fun a y => max a y.valor) x.valor

/-- Python's `min` over the amounts of a nonempty bid list. -/
def menorValor (x : Lance) (xs : List Lance) : ℚ :=
  xs.foldl (fun a y => min a y.valor) x.valor

/-- `LanceService.obter_maior_menor_lance` (`src/services/lance_service.py`,
lines 110-144). -/
def obter_maior_menor_lance (st : Store) (leilao_id : ℕ) :
    Except BidError MaiorMenor :=
  if leilao_id ≠ st.leilao.id then .error .auctionNotFound
  else
    match lancesDoLeilao st.lances leilao_id with
    | [] => .ok ⟨none, none, st.leilao.lance_minimo, 0⟩
    | x :: xs => .ok ⟨some (maiorValor x xs), some (menorValor x xs),
        maiorValor x xs, (x :: xs).length⟩

/-- The dict returned by `LeilaoService.obter_estatisticas_leilao`. -/
structure Estatisticas where
  total_lances : ℕ
  maior_lance : Option ℚ
  menor_lance : Option ℚ
  participantes_unicos : ℕ
  lance_atual : ℚ
deriving DecidableEq, Repr

/-- `LeilaoService.obter_estatisticas_leilao`
(`src/services/leilao_service.py`, lines 305-343). -/
def obter_estatisticas_leilao (st : Store) (leilao_id : ℕ) :
    Except LeilaoError Estatisticas :=
  if leilao_id ≠ st.leilao.id then .error .notFound
  else
    match lancesDoLeilao st.lances leilao_id with
    | [] => .ok ⟨0, none, none, 0, st.leilao.lance_minimo⟩
    | x :: xs => .ok ⟨(x :: xs).length, some (maiorValor x xs),
        some (menorValor x xs),
        ((x :: xs).map (·.participante_id)).dedup.length,
        maiorValor x xs⟩

/-- Auction states (auction row together with its bid list) reachable through
`criar_leilao`, successful `criar_lance` calls, and the lifecycle sweep. -/
inductive Reachable : Leilao → List Lance → Prop where
  /-- A freshly created auction: `criar_leilao` succeeded and the row has no
  bids yet. -/
  | create (id : ℕ) (nome : String) (m : ℚ) (di dt : ℤ) (pp : Bool)
      (agora : ℤ) (l : Leilao)
      (h : criar_leilao id nome m di dt pp agora = .ok l) :
      Reachable l []
  /-- A successful `criar_lance` call against the auction, from any registry
  `ps` of participants. -/
  | bid (l : Leilao) (ls : List Lance) (ps : List ℕ) (p : ℕ) (v : ℚ) (t : ℤ)
      (st' : Store) (hr : Reachable l ls)
      (h : criar_lance ⟨ps, l, ls⟩ p l.id v t = .ok st') :
      Reachable st'.leilao st'.lances
  /-- One pass of the lifecycle sweep over the auction at instant `agora`. -/
  | sweep (l : Leilao) (ls : List Lance) (agora : ℤ) (hr : Reachable l ls) :
      Reachable (sweepLeilao agora ls l).1 ls

/-- Adjacency discipline of a bid list: strictly increasing amounts and no
two insertion-order neighbours from the same participant. -/
def LanceSeq (a b : Lance) : Prop :=
  a.valor < b.valor ∧ a.participante_id ≠ b.participante_id

instance : DecidableRel LanceSeq := fun a b => by
  unfold LanceSeq; infer_instance

/-- Winner invariant carried through `Reachable`: every bid belongs to the
auction; a non-`FINALIZADO` auction has no winner; a `FINALIZADO` auction's
winner is the participant of a stored bid of maximal amount. -/
def VencedorInv (l : Leilao) (ls : List Lance) : Prop :=
  (∀ b ∈ ls, b.leilao_id = l.id) ∧
  (l.status ≠ StatusLeilao.FINALIZADO → l.participante_vencedor_id = none) ∧
  (l.status = StatusLeilao.FINALIZADO →
    ∃ w, lanceVencedor (lancesDoLeilao ls l.id) = some w ∧
      l.participante_vencedor_id = some w.participante_id ∧
      ∀ b ∈ ls, b.valor ≤ w.valor)

/-! Concrete stores for the scenario claims.  `c4_*`: the §8 bidding
scenario (floor 1000, open for bids).  `c5_*`: an open auction whose last
bid equals the floor.  `c2_*`: a finalized auction.  `c3_*`: an expired
auction.  `c10_*`: an inactive auction created with a past start date. -/

/-- The §8 scenario auction as created: floor 1000, started 10 minutes ago,
ends in an hour, `INATIVO`. -/
def c4_inativo : Leilao := ⟨1, "Produto Teste", 1000, -10, 60, .INATIVO, none⟩

/-- The §8 scenario auction after the sweep opened it. -/
def c4_aberto : Leilao := ⟨1, "Produto Teste", 1000, -10, 60, .ABERTO, none⟩

/-- §8 scenario: participants P1 = 1 and P2 = 2, no bids yet. -/
def c4_st0 : Store := ⟨[1, 2], c4_aberto, []⟩

/-- §8 scenario after P1's accepted bid of 1100. -/
def c4_st1 : Store := ⟨[1, 2], c4_aberto, [⟨1100, 1, 1, 1⟩]⟩

/-- §8 scenario after P2's accepted bid of 1150. -/
def c4_st2 : Store := ⟨[1, 2], c4_aberto, [⟨1100, 1, 1, 1⟩, ⟨1150, 1, 2, 3⟩]⟩

/-- An open auction with floor 100 whose last (and only) bid is 100 by P1. -/
def c5_st : Store :=
  ⟨[1, 2], ⟨1, "Produto C", 100, -10, 60, .ABERTO, none⟩, [⟨100, 1, 1, 0⟩]⟩

/-- A finalized auction with one stored bid and participant 1 registered. -/
def c2_st : Store :=
  ⟨[1], ⟨1, "Produto F", 100, -10, -5, .FINALIZADO, some 1⟩, [⟨100, 1, 1, -7⟩]⟩

/-- An expired auction with no bids. -/
def c3_st : Store :=
  ⟨[1], ⟨1, "Produto Antigo", 100, -100, -50, .EXPIRADO, none⟩, []⟩

/-- An inactive auction that was force-created with a past start date. -/
def c10_st : Store :=
  ⟨[1], ⟨1, "Produto P", 100, -100, 100, .INATIVO, none⟩, []⟩

/-! ## Helper lemmas -/

theorem validar_valor_ok {v w : ℚ} :
    validar_valor v = .ok w ↔ ¬v ≤ 0 ∧ w = v := by
  unfold validar_valor
  split_ifs with h <;> simp [h, eq_comm]

/-- Full characterization of a successful `criar_lance`: exactly the checks
of the source, and the bid appended at the end of the auction's history. -/
theorem criar_lance_ok_iff {st st' : Store} {p lid : ℕ} {v : ℚ} {t : ℤ} :
    criar_lance st p lid v t = .ok st' ↔
      ¬v ≤ 0 ∧ p ∈ st.participantes ∧ lid = st.leilao.id ∧
      st.leilao.status = StatusLeilao.ABERTO ∧ ¬v < st.leilao.lance_minimo ∧
      (∀ u ∈ ultimoLance st.lances lid, u.valor < v ∧ u.participante_id ≠ p) ∧
      st' = { st with lances := st.lances ++ [⟨v, lid, p, t⟩] } := by
  unfold criar_lance validar_valor
  rcases hu : ultimoLance st.lances lid with _ | u <;>
    split_ifs with h1 h2 h3 h4 <;>
    (try simp_all [not_lt]) <;>
    (try split_ifs) <;>
    (try simp_all [eq_comm])

theorem lancesDoLeilao_append {ls : List Lance} {lid : ℕ} {x : Lance}
    (hx : x.leilao_id = lid) :
    lancesDoLeilao (ls ++ [x]) lid = lancesDoLeilao ls lid ++ [x] := by
  simp [lancesDoLeilao, List.filter_append, hx]

/-! ## C1: accepted bids are strictly increasing and alternate participants -/

/-- C1.  Any sequence of `criar_lance` calls against the store's auction
preserves the bid-history discipline: amounts strictly increase in insertion
order and no two adjacent accepted bids share a participant.  Starting from
a history satisfying the discipline (e.g. the empty one), every accepted bid
extends it. -/
theorem C1_lances_crescentes_alternados (st : Store) (ts : List Tentativa)
    (h : List.Chain' LanceSeq (lancesDoLeilao st.lances st.leilao.id)) :
    List.Chain' LanceSeq
      (lancesDoLeilao (runLances st ts).lances (runLances st ts).leilao.id) := by
  induction ts generalizing st with
  | nil => exact h
  | cons a ts ih =>
    simp only [runLances, List.foldl_cons]
    rcases hc : criar_lance st a.participante_id st.leilao.id a.valor a.agora
      with e | st'
    · exact ih st h
    · obtain ⟨-, -, -, -, -, hult, hst'⟩ := criar_lance_ok_iff.mp hc
      subst hst'
      refine ih _ ?_
      rw [show ({ st with lances := st.lances ++
          [⟨a.valor, st.leilao.id, a.participante_id, a.agora⟩] } : Store).leilao
        = st.leilao from rfl]
      rw [show ({ st with lances := st.lances ++
          [⟨a.valor, st.leilao.id, a.participante_id, a.agora⟩] } : Store).lances
        = st.lances ++ [⟨a.valor, st.leilao.id, a.participante_id, a.agora⟩] from rfl]
      rw [lancesDoLeilao_append rfl]
      rw [List.chain'_append]
      refine ⟨h, List.chain'_singleton _, ?_⟩
      intro x hx y hy
      have hr := hult x hx
      simp only [List.head?_cons, Option.mem_def, Option.some.injEq] at hy
      subst hy
      exact ⟨hr.1, hr.2⟩

/-- C1 witness: the §8 bidding scenario run from the opened auction yields a
history satisfying the discipline. -/
theorem C1_witness :
    List.Chain' LanceSeq (lancesDoLeilao
      (runLances c4_st0 [⟨1, 1100, 1⟩, ⟨1, 1200, 2⟩, ⟨2, 1150, 3⟩, ⟨2, 1300, 4⟩]).lances
      (runLances c4_st0 [⟨1, 1100, 1⟩, ⟨1, 1200, 2⟩, ⟨2, 1150, 3⟩, ⟨2, 1300, 4⟩]).leilao.id) :=
  C1_lances_crescentes_alternados c4_st0
    [⟨1, 1100, 1⟩, ⟨1, 1200, 2⟩, ⟨2, 1150, 3⟩, ⟨2, 1300, 4⟩] (by decide)

/-! ## C2: bidding on a non-OPEN auction -/

/-- C2 counterexample.  The claim quantifies over every amount, but
`criar_lance` validates the amount before looking at the auction status: on
a `FINALIZADO` auction a bid of `-1` by the registered participant 1 fails
with the amount `ValidationError`, not with the `InvalidStateError` the
claim demands. -/
theorem C2_counterexample :
    criar_lance c2_st 1 1 (-1) 0 = .error .invalidValue ∧
    BidError.kind .invalidValue ≠ ErrKind.invalidState ∧
    c2_st.leilao.status ≠ StatusLeilao.ABERTO ∧ 1 ∈ c2_st.participantes := by
  decide

/-- C2 (amended).  For every auction whose status is not `ABERTO`, every
registered participant and every positive amount, `criar_lance` fails with
the `InvalidStateError` message and the store keeps its bids unchanged. -/
theorem C2_estado_invalido (st : Store) (p : ℕ) (v : ℚ) (t : ℤ)
    (hp : p ∈ st.participantes) (hv : 0 < v)
    (hs : st.leilao.status ≠ StatusLeilao.ABERTO) :
    criar_lance st p st.leilao.id v t =
      .error (.auctionNotOpen st.leilao.status) ∧
    runLances st [⟨p, v, t⟩] = st := by
  have h1 : criar_lance st p st.leilao.id v t =
      .error (.auctionNotOpen st.leilao.status) := by
    simp [criar_lance, validar_valor, not_le.mpr hv, hp, hs]
  exact ⟨h1, by simp [runLances, h1]⟩

/-- C2 witness: a bid of 500 by participant 1 on the `FINALIZADO` store. -/
theorem C2_witness :
    criar_lance c2_st 1 c2_st.leilao.id 500 0 =
      .error (.auctionNotOpen c2_st.leilao.status) ∧
    runLances c2_st [⟨1, 500, 0⟩] = c2_st :=
  C2_estado_invalido c2_st 1 500 0 (by decide) (by decide) (by decide)

/-! ## C3: mutating a non-INATIVO auction -/

/-- C3.  The guard of `atualizar_leilao`/`excluir_leilao` rejects only
`ABERTO` and `FINALIZADO`, so an `EXPIRADO` auction — a status the claim
covers — can be renamed and deleted, contrary to the claim and to the
functions' own docstrings ("APENAS se estiver INATIVO").  `OPEN` and
`FINALIZED` do fail as claimed. -/
theorem C3_expirado_mutavel :
    c3_st.leilao.status = StatusLeilao.EXPIRADO ∧
    atualizar_leilao c3_st 1 (some "Novo Nome") none none none 0 =
      .ok ⟨[1], ⟨1, "Novo Nome", 100, -100, -50, .EXPIRADO, none⟩, []⟩ ∧
    excluir_leilao c3_st 1 = .ok true ∧
    atualizar_leilao c4_st0 1 (some "Novo Nome") none none none 0 =
      .error (.cannotModify .ABERTO) ∧
    excluir_leilao c4_st0 1 = .error (.cannotModify .ABERTO) ∧
    atualizar_leilao c2_st 1 (some "Novo Nome") none none none 0 =
      .error (.cannotModify .FINALIZADO) ∧
    excluir_leilao c2_st 1 = .error (.cannotModify .FINALIZADO) := by
  decide

/-! ## C4: the §8 bidding scenario -/

/-- C4 counterexample.  In the §8 scenario the third call — P2 bidding 1150
after P1's accepted 1100 — is claimed to fail with `TooLowError` ("must
exceed 1100"), but 1150 > 1100, so `criar_lance` accepts it. -/
theorem C4_counterexample :
    criar_lance c4_st1 2 1 1150 3 = .ok c4_st2 ∧
    c4_st1.lances = [⟨1100, 1, 1, 1⟩] := by
  decide

/-- C4 (amended).  The scenario as the code runs it: the sweep opens the
auction; placeBid(P1,1100) succeeds; placeBid(P1,1200) fails with
`ConsecutiveBidderError`; placeBid(P2,1150) succeeds (1150 exceeds 1100);
placeBid(P2,1300) then fails with `ConsecutiveBidderError`. -/
theorem C4_cenario :
    criar_leilao 1 "Produto Teste" 1000 (-10) 60 true 0 = .ok c4_inativo ∧
    sweepLeilao 0 [] c4_inativo = (c4_aberto, ⟨1, 0, 0⟩) ∧
    criar_lance c4_st0 1 1 1100 1 = .ok c4_st1 ∧
    criar_lance c4_st1 1 1 1200 2 = .error .consecutiveBidder ∧
    criar_lance c4_st1 2 1 1150 3 = .ok c4_st2 ∧
    criar_lance c4_st2 2 1 1300 4 = .error .consecutiveBidder := by
  decide

/-! ## C9: statistics of an auction with zero bids -/

/-- C9.  For an auction with no bids, both statistics queries return `None`
for the highest and lowest bid, a count of 0, no distinct participants, and
the auction's floor as the current bid value. -/
theorem C9_sem_lances (ps : List ℕ) (l : Leilao) :
    obter_maior_menor_lance ⟨ps, l, []⟩ l.id =
      .ok ⟨none, none, l.lance_minimo, 0⟩ ∧
    obter_estatisticas_leilao ⟨ps, l, []⟩ l.id =
      .ok ⟨0, none, none, 0, l.lance_minimo⟩ := by
  constructor <;>
    simp [obter_maior_menor_lance, obter_estatisticas_leilao, lancesDoLeilao]

/-! ## C10: auction update always re-validates dates against "now" -/

/-- C10.  `atualizar_leilao` passes no `permitir_passado` flag to
`validar_datas`, so updating an `INATIVO` auction with a start date before
`agora` always fails with a `ValidationError`-kind message (the past-date
message, or the date-order message when the effective end does not follow
the new start) — even when the auction itself was created with a past start
date through the override. -/
theorem C10_atualizar_passado_falha (st : Store) (d : ℤ) (dt : Option ℤ)
    (agora : ℤ) (hs : st.leilao.status = StatusLeilao.INATIVO)
    (hd : d < agora) :
    ∃ e, atualizar_leilao st st.leilao.id none none (some d) dt agora =
        .error e ∧ e.kind = ErrKind.validation := by
  by_cases h2 : dt.getD st.leilao.data_termino ≤ d
  · refine ⟨.dateOrder, ?_, rfl⟩
    simp [atualizar_leilao, validar_datas, hs, h2, hd]
  · refine ⟨.pastDate, ?_, rfl⟩
    simp [atualizar_leilao, validar_datas, hs, h2, hd]

/-- C10 witness: the inactive auction that was force-created with start
date −100 rejects an update moving the start to −5 (before now = 0). -/
theorem C10_witness :
    ∃ e, atualizar_leilao c10_st c10_st.leilao.id none none (some (-5)) none 0 =
        .error e ∧ e.kind = ErrKind.validation :=
  C10_atualizar_passado_falha c10_st (-5) none 0 (by decide) (by decide)

/-! ## C5: simular_lance versus criar_lance -/

/-- C5 counterexample.  With last bid 100 by P1 on a floor-100 auction, P2's
bid of 100.005 is accepted by `criar_lance` (100.005 > 100) but
`simular_lance` declares it invalid, because it demands at least
`last + 0.01` = 100.01.  So `valid = True` does not hold exactly when
`criar_lance` accepts. -/
theorem C5_counterexample :
    (simular_lance c5_st 2 1 (20001/200)).valido = false ∧
    criar_lance c5_st 2 1 (20001/200) 1 =
      .ok ⟨[1, 2], c5_st.leilao, [⟨100, 1, 1, 0⟩, ⟨20001/200, 1, 2, 1⟩]⟩ := by
  constructor
  · norm_num [simular_lance, simularFim, validar_valor, ultimoLance,
      lancesDoLeilao, c5_st]
  · norm_num [criar_lance, validar_valor, ultimoLance, lancesDoLeilao, c5_st]

/-- C5 (amended).  `simular_lance` is sound for `criar_lance` but not
complete: whenever it reports `valid = True` (on a store whose last bid
already meets the floor, as every bid accepted by `criar_lance` does),
`criar_lance` on the same state accepts the bid.  The converse fails for
amounts within 0.01 of the last bid, and the rejection reasons follow a
different order (the consecutive-bidder rule is checked before the amount
rule). -/
theorem C5_simular_sound (st : Store) (p : ℕ) (v : ℚ) (t : ℤ)
    (hfloor : ultimoRespeitaMinimo st = true)
    (hval : (simular_lance st p st.leilao.id v).valido = true) :
    (criar_lance st p st.leilao.id v t).isOk = true := by
  unfold ultimoRespeitaMinimo at hfloor
  unfold simular_lance at hval
  rcases hv : validar_valor v with e | v'
  · rw [hv] at hval
    simp at hval
  · obtain ⟨hv0, rfl⟩ := validar_valor_ok.mp hv
    rw [hv] at hval
    rcases hu : ultimoLance st.lances st.leilao.id with _ | u <;>
      rw [hu] at hval hfloor <;>
      simp only [] at hval
    · -- no previous bid
      split_ifs at hval with h1 h2 h3
      unfold simularFim at hval
      split_ifs at hval with h4
      rw [criar_lance_ok_iff.mpr ⟨hv0, h1, rfl, not_not.mp h3,
        h4, by rw [hu]; simp, rfl⟩]
      rfl
    · -- a previous bid exists
      split_ifs at hval with h1 h2 h3 h4
      unfold simularFim at hval
      split_ifs at hval with h5
      have hmin : st.leilao.lance_minimo ≤ u.valor := by simpa using hfloor
      have hge : u.valor + 1/100 ≤ v' := not_lt.mp h5
      refine Eq.trans (congrArg Except.isOk (criar_lance_ok_iff.mpr
        ⟨hv0, h1, rfl, not_not.mp h3,
          not_lt.mpr (by linarith), ?_, rfl⟩)) rfl
      intro w hw
      rw [hu] at hw
      simp only [Option.mem_def, Option.some.injEq] at hw
      subst hw
      exact ⟨by linarith, h4⟩

/-- C5 witness: P1's opening bid of 1100 on the empty §8 store is declared
valid by the simulation and accepted by `criar_lance`. -/
theorem C5_witness :
    (criar_lance c4_st0 1 c4_st0.leilao.id 1100 1).isOk = true :=
  C5_simular_sound c4_st0 1 1100 1 (by decide) (by decide)

/-! ## C6: simular_lance never mutates the store -/

/-- C6.  Running any number of `simular_lance` calls leaves the store — and
hence the stored bids, the auction's bid count, and every view derived from
the store such as the leaderboard — exactly as it was. -/
theorem C6_simular_nao_altera (st : Store) (cs : List (ℕ × ℕ × ℚ)) :
    (runSimulacoes st cs).1 = st ∧
    (runSimulacoes st cs).1.lances = st.lances ∧
    (lancesDoLeilao (runSimulacoes st cs).1.lances
        (runSimulacoes st cs).1.leilao.id).length =
      (lancesDoLeilao st.lances st.leilao.id).length := by
  have key : ∀ (cs : List (ℕ × ℕ × ℚ)) (acc : List SimResult),
      (List.foldl
        (fun acc c =>
          let r := simular_lance acc.1 c.1 c.2.1 c.2.2
          (acc.1, acc.2 ++ [r]))
        (st, acc) cs).1 = st := by
    intro cs
    induction cs with
    | nil => intro acc; rfl
    | cons c cs ih => intro acc; exact ih _
  have h : (runSimulacoes st cs).1 = st := key cs []
  exact ⟨h, by rw [h], by rw [h]⟩

/-! ## C7: the lifecycle sweep is idempotent -/

theorem sweepGate_idem (agora : ℤ) (lances : List Lance) (l : Leilao) :
    sweepGate agora lances (sweepGate agora lances l).1 =
      ((sweepGate agora lances l).1, ⟨0, 0, 0⟩) := by
  obtain ⟨id, nome, m, di, dt, s, w⟩ := l
  by_cases hdt : dt ≤ agora <;> by_cases hdi : di ≤ agora <;>
    by_cases hlen : 0 < (lancesDoLeilao lances id).length <;>
    rcases hlv : lanceVencedor (lancesDoLeilao lances id) with _ | wv <;>
    cases s <;>
    simp [sweepGate, sweepLeilao, encerrarLeilao, hdt, hdi, hlen, hlv]

theorem sweepLista_idem (agora : ℤ) (lances : List Lance) (ls : List Leilao) :
    sweepLista agora lances (sweepLista agora lances ls).1 =
      ((sweepLista agora lances ls).1, ⟨0, 0, 0⟩) := by
  induction ls with
  | nil => rfl
  | cons l ls ih =>
    simp only [sweepLista]
    rw [sweepGate_idem, ih]
    rfl

/-- C7.  Running the sweep a second time at the same instant changes no
auction's status (the database is exactly the one the first run produced)
and tallies zero opened, finalized and expired transitions. -/
theorem C7_sweep_idempotente (agora : ℤ) (db : DB) :
    atualizar_status_leiloes agora (atualizar_status_leiloes agora db).1 =
      ((atualizar_status_leiloes agora db).1, ⟨0, 0, 0⟩) := by
  unfold atualizar_status_leiloes
  simp only []
  rw [sweepLista_idem]

/-! ## C8: the winner reference is set iff the auction is FINALIZADO -/

/-- `lanceVencedor` on a nonempty list returns a stored bid of maximal
amount. -/
theorem lanceVencedor_spec (x : Lance) (xs : List Lance) :
    ∃ w, lanceVencedor (x :: xs) = some w ∧ w ∈ x :: xs ∧
      ∀ b ∈ x :: xs, b.valor ≤ w.valor := by
  induction xs generalizing x with
  | nil => exact ⟨x, rfl, by simp, by simp⟩
  | cons y ys ih =>
    obtain ⟨w, hw, hmem, hle⟩ := ih (if x.valor < y.valor then y else x)
    simp only [lanceVencedor, Option.some.injEq] at hw
    refine ⟨w, ?_, ?_, ?_⟩
    · simp only [lanceVencedor, List.foldl_cons, Option.some.injEq]
      exact hw
    · rcases List.mem_cons.mp hmem with h | h
      · subst h
        split_ifs <;> simp
      · simp [h]
    · intro b hb
      have hpick_x : x.valor ≤ (if x.valor < y.valor then y else x).valor := by
        split_ifs with h
        · exact le_of_lt h
        · exact le_refl _
      have hpick_y : y.valor ≤ (if x.valor < y.valor then y else x).valor := by
        split_ifs with h
        · exact le_refl _
        · exact not_lt.mp h
      have hpick_w : (if x.valor < y.valor then y else x).valor ≤ w.valor :=
        hle _ (List.mem_cons_self _ _)
      rcases List.mem_cons.mp hb with h | h
      · subst h; exact le_trans hpick_x hpick_w
      · rcases List.mem_cons.mp h with h' | h'
        · subst h'; exact le_trans hpick_y hpick_w
        · exact hle b (List.mem_cons_of_mem _ h')

/-- A successful `criar_leilao` yields an `INATIVO` auction without a
winner. -/
theorem criar_leilao_ok {id : ℕ} {nome : String} {m : ℚ} {di dt : ℤ}
    {pp : Bool} {agora : ℤ} {l : Leilao}
    (h : criar_leilao id nome m di dt pp agora = .ok l) :
    l.status = StatusLeilao.INATIVO ∧ l.participante_vencedor_id = none := by
  unfold criar_leilao at h
  rcases hn : validar_nome nome with e | n <;> rw [hn] at h
  · simp [Bind.bind, Except.bind] at h
  · rcases hm : validar_lance_minimo m with e | m' <;> rw [hm] at h
    · simp [Bind.bind, Except.bind] at h
    · rcases hd : validar_datas di dt pp agora with e | pair <;> rw [hd] at h
      · simp [Bind.bind, Except.bind] at h
      · obtain ⟨di', dt'⟩ := pair
        simp only [Bind.bind, Except.bind, Pure.pure, Except.pure,
          Except.ok.injEq] at h
        subst h
        exact ⟨rfl, rfl⟩

/-- `encerrarLeilao` preserves the winner invariant: with bids it finalizes
and installs the maximal bid's participant, without bids it expires and the
winner stays `none`. -/
theorem encerrarLeilao_inv {ls : List Lance} {l : Leilao}
    (inv : VencedorInv l ls) (hnf : l.status ≠ StatusLeilao.FINALIZADO) :
    VencedorInv (encerrarLeilao ls l).1 ls := by
  have hfil : lancesDoLeilao ls l.id = ls :=
    List.filter_eq_self.mpr (fun a ha => by simp [inv.1 a ha])
  unfold encerrarLeilao
  split_ifs with hlen
  · rcases hls : lancesDoLeilao ls l.id with _ | ⟨x, xs⟩
    · rw [hls] at hlen; simp at hlen
    · obtain ⟨w, hw, hmem, hle⟩ := lanceVencedor_spec x xs
      rw [hw]
      have hlsx : ls = x :: xs := hfil.symm.trans hls
      refine ⟨fun b hb => inv.1 b hb, fun hns => absurd rfl hns,
        fun _ => ⟨w, ?_, rfl, ?_⟩⟩
      · show lanceVencedor (lancesDoLeilao ls l.id) = some w
        rw [hls]; exact hw
      · intro b hb
        exact hle b (hlsx ▸ hb)
  · refine ⟨fun b hb => inv.1 b hb, fun _ => inv.2.1 hnf, fun hf => ?_⟩
    simp at hf

/-- The winner invariant holds in every reachable auction state. -/
theorem reachable_inv {l : Leilao} {ls : List Lance} (hr : Reachable l ls) :
    VencedorInv l ls := by
  induction hr with
  | create id nome m di dt pp agora l h =>
    obtain ⟨hs, hw⟩ := criar_leilao_ok h
    refine ⟨by simp, fun _ => hw, fun hf => ?_⟩
    rw [hs] at hf; cases hf
  | bid l ls ps p v t st' hr h ih =>
    obtain ⟨hv, hp, hlid, hst, hmin, hult, hshape⟩ := criar_lance_ok_iff.mp h
    subst hshape
    refine ⟨?_, fun _ => ih.2.1 (by rw [hst]; simp), fun hf => ?_⟩
    · intro b hb
      rcases List.mem_append.mp hb with hb | hb
      · exact ih.1 b hb
      · simp only [List.mem_singleton] at hb
        subst hb; rfl
    · exact absurd hf (by rw [hst]; simp)
  | sweep l ls agora hr ih =>
    show VencedorInv (sweepLeilao agora ls l).1 ls
    unfold sweepLeilao
    split_ifs with h1 h2 h3 h4 h5
    · exact encerrarLeilao_inv ih (by rw [h1]; simp)
    · exact ⟨ih.1, fun _ => ih.2.1 (by rw [h1]; simp), fun hf => by simp at hf⟩
    · exact ih
    · exact encerrarLeilao_inv ih (by rw [h4]; simp)
    · exact ih
    · exact ih

/-- C8.  For every auction state reachable through creation, accepted bids
and the lifecycle sweep, the winner reference is non-null exactly when the
status is `FINALIZADO`, and then it names the participant of a stored bid
of maximal amount. -/
theorem C8_vencedor_sse_finalizado (l : Leilao) (ls : List Lance)
    (hr : Reachable l ls) :
    (l.participante_vencedor_id ≠ none ↔
      l.status = StatusLeilao.FINALIZADO) ∧
    (l.status = StatusLeilao.FINALIZADO →
      ∃ w, lanceVencedor (lancesDoLeilao ls l.id) = some w ∧
        l.participante_vencedor_id = some w.participante_id ∧
        ∀ b ∈ ls, b.valor ≤ w.valor) := by
  have inv := reachable_inv hr
  refine ⟨⟨fun hw => ?_, fun hf => ?_⟩, inv.2.2⟩
  · by_contra hs
    exact hw (inv.2.1 hs)
  · obtain ⟨w, -, hwid, -⟩ := inv.2.2 hf
    rw [hwid]; simp

/-- C8 witness: the freshly created §8 auction is reachable, has no winner
and is not `FINALIZADO`. -/
theorem C8_witness :
    (c4_inativo.participante_vencedor_id ≠ none ↔
      c4_inativo.status = StatusLeilao.FINALIZADO) ∧
    (c4_inativo.status = StatusLeilao.FINALIZADO →
      ∃ w, lanceVencedor (lancesDoLeilao [] c4_inativo.id) = some w ∧
        c4_inativo.participante_vencedor_id = some w.participante_id ∧
        ∀ b ∈ ([] : List Lance), b.valor ≤ w.valor) :=
  C8_vencedor_sse_finalizado c4_inativo []
    (Reachable.create 1 "Produto Teste" 1000 (-10) 60 true 0 c4_inativo
      (by decide))

end Leilao2
